import Mathlib

/-!
Shallow embedding of the secrets/config parameter management core
(the `Config` module and its helpers: parameter listing, path building,
secret writes with tier-downgrade recovery, and the dependent-resource
restart propagation), together with theorems settling the specification
claims about it.

Strings from the source are modelled as `List Char` (`Str`); the backing
parameter store is a list of `(name, value)` pairs; the paginated
`GetParametersByPath` scan is modelled as a prefix filter over that list;
external calls that can fail are modelled with `Except`-valued oracles.
-/

set_option autoImplicit false

/-- Character-list strings, the value model for all source strings. -/
abbrev Str := List Char

/-- Split a character list on a separator, mirroring the semantics of a
JavaScript single-character `split`: the result is always non-empty, empty
segments are kept. -/
def splitChar (sep : Char) : List Char → List (List Char)
  | [] => [[]]
  | c :: cs =>
    if c = sep then [] :: splitChar sep cs
    else
      match splitChar sep cs with
      | [] => [[c]]
      | p :: ps => (c :: p) :: ps

/-- Join segments with a separator, mirroring a JavaScript `Array.join`
with a single-character separator. -/
def joinChar (sep : Char) : List (List Char) → List Char
  | [] => []
  | [x] => x
  | x :: xs => x ++ sep :: joinChar sep xs

/-- Process-identity inputs of the core: application name, stage name and
the stage-scoped SSM path root (the value of `project.config.ssmPrefix`). -/
structure Project where
  name : Str
  stage : Str
  stagePathRoot : Str
deriving DecidableEq

/-- The reserved pseudo-stage used for fallback values (`FALLBACK_STAGE`). -/
def FALLBACK_STAGE : Str := ".fallback".data

/-- Result of `parse`: the `{type, id, prop}` record parsed back from an
SSM parameter name. -/
structure SsmParsed where
  type : Str
  id : Str
  prop : Str
deriving DecidableEq

/-- `parse(ssmName, prefix)` from the source: strip the scope path root,
split on `/`; `type` is segment 0, `id` segment 1, `prop` the remaining
segments re-joined with `/`. Out-of-range segment access is totalised to
the empty string. -/
def parse (ssmName : Str) (pre : Str) : SsmParsed :=
  let parts := splitChar '/' (ssmName.drop pre.length)
  { type := parts.headD []
    id := (parts.drop 1).headD []
    prop := joinChar '/' (parts.drop 2) }

/-- `scanParameters(prefix)`: the paginated `GetParametersByPath` scan over
the backing store, modelled as selecting every stored `(name, value)` pair
whose name lies under the requested path root. -/
def scanParameters (pre : Str) (store : List (Str × Str)) : List (Str × Str) :=
  store.filter (fun p => decide (pre <+: p.1))

/-- A resolved entry of `Config.parameters`: the parsed path plus the
decrypted value. -/
structure ConfigParameter where
  type : Str
  id : Str
  prop : Str
  value : Str
deriving DecidableEq

namespace Config

/-- `Config.PREFIX.STAGE`. -/
def PREFIX_STAGE (project : Project) : Str := project.stagePathRoot

/-- `Config.PREFIX.FALLBACK` = `/sst/{app}/.fallback/`. -/
def PREFIX_FALLBACK (project : Project) : Str :=
  "/sst/".data ++ project.name ++ "/".data ++ FALLBACK_STAGE ++ "/".data

/-- `Config.normalizeID`: replace every `-` with `_`. -/
def normalizeID (input : Str) : Str :=
  input.map (fun c => if c = '-' then '_' else c)

/-- Input record of `Config.pathFor`. -/
structure PathInput where
  type : Str
  id : Str
  prop : Str
  fallback : Bool
deriving DecidableEq

/-- `Config.pathFor`: scope path root + `type` + `/` + normalised `id` +
`/` + `prop`. -/
def pathFor (project : Project) (input : PathInput) : Str :=
  (if input.fallback then PREFIX_FALLBACK project else PREFIX_STAGE project)
    ++ input.type ++ ['/'] ++ normalizeID input.id ++ ['/'] ++ input.prop

/-- `Config.envFor`: `SST_{type}_{prop}_{normalizedId}`. -/
def envFor (type id prop : Str) : Str :=
  "SST_".data ++ type ++ "_".data ++ prop ++ "_".data ++ normalizeID id

/-- One scan pass of `Config.parameters`: scan a scope, parse each name
against that scope, skip entries whose parsed type is the literal string
`secrets`, keep the rest together with their values. -/
def parametersFrom (pre : Str) (store : List (Str × Str)) : List ConfigParameter :=
  (scanParameters pre store).filterMap (fun p =>
    let parsed := parse p.1 pre
    if parsed.type = "secrets".data then none
    else some { type := parsed.type, id := parsed.id, prop := parsed.prop, value := p.2 })

/-- `Config.parameters`: the FALLBACK scan followed by the STAGE scan. -/
def parameters (project : Project) (store : List (Str × Str)) : List ConfigParameter :=
  parametersFrom (PREFIX_FALLBACK project) store ++ parametersFrom (PREFIX_STAGE project) store

/-- `Config.env`: `SST_APP`, `SST_STAGE`, then one entry per resolved
parameter, keyed by `envFor`. The list order carries the JavaScript
object-literal semantics: a later entry overwrites an earlier one with the
same key (see `envLookup`). -/
def env (project : Project) (store : List (Str × Str)) : List (Str × Str) :=
  ("SST_APP".data, project.name) :: ("SST_STAGE".data, project.stage) ::
    (parameters project store).map (fun p => (envFor p.type p.id p.prop, p.value))

end Config

/-- Lookup in an entry list under JavaScript object semantics: the last
entry with the requested key wins. -/
def envLookup (l : List (Str × Str)) (k : Str) : Option Str :=
  (l.reverse.find? (fun e => decide (e.1 = k))).map Prod.snd

/-- The SSM storage tiers. -/
inductive ParamTier where
  | Standard
  | Advanced
deriving DecidableEq

/-- The request record built by `putParameter`. -/
structure PutParameterCommand where
  Name : Str
  Value : Str
  ParamType : Str
  Overwrite : Bool
  Tier : ParamTier
deriving DecidableEq

/-- `putParameter(name, value)`: a SecureString overwrite whose tier is
Advanced exactly when the value length exceeds 4096. -/
def putParameter (name value : Str) : PutParameterCommand :=
  { Name := name
    Value := value
    ParamType := "SecureString".data
    Overwrite := true
    Tier := if value.length > 4096 then ParamTier.Advanced else ParamTier.Standard }

/-- A JavaScript error value as observed by the catch blocks: `name` and
`message`. -/
structure JsError where
  name : Str
  message : Str
deriving DecidableEq

/-- The backend message for a refused Advanced-to-Standard tier downgrade. -/
def advancedDowngradeMsg : Str :=
  "This parameter uses the advanced-parameter tier. You can't downgrade a parameter from the advanced-parameter tier to the standard-parameter tier.".data

/-- The `wasAdvanced` test of `Config.setSecret`: a `ValidationException`
whose message starts with the tier-downgrade text. -/
def wasAdvanced (e : JsError) : Bool :=
  decide (e.name = "ValidationException".data) && decide (advancedDowngradeMsg <+: e.message)

/-- Observable side effects of `Config.setSecret`: parameter puts and
deletes against the store, and the IoT event publication. -/
inductive SsmOp where
  | put (name value : Str)
  | del (name : Str)
  | publish (event payload : Str)
deriving DecidableEq

/-- `Config.setSecret({key, value, fallback})`, instrumented: the backend
outcomes of the first put attempt, the delete, and the retried put are
supplied as oracles (`r1`, `dres`, `r2`); the result is the exact sequence
of operations issued together with the error raised to the caller, if any.
The source tries the put, and on a `wasAdvanced` failure deletes the path
and retries the put; any other failure is re-thrown. On success it
publishes `config.secret.updated`. -/
def setSecret (r1 dres r2 : Except JsError Unit) (project : Project)
    (key value : Str) (fallback : Bool) : List SsmOp × Option JsError :=
  let paramName := Config.pathFor project
    { type := "Secret".data, id := key, prop := "value".data, fallback := fallback }
  match r1 with
  | Except.ok _ =>
    ([SsmOp.put paramName value, SsmOp.publish "config.secret.updated".data key], none)
  | Except.error e =>
    if wasAdvanced e then
      match dres with
      | Except.error de => ([SsmOp.put paramName value, SsmOp.del paramName], some de)
      | Except.ok _ =>
        match r2 with
        | Except.ok _ =>
          ([SsmOp.put paramName value, SsmOp.del paramName, SsmOp.put paramName value,
            SsmOp.publish "config.secret.updated".data key], none)
        | Except.error e2 =>
          ([SsmOp.put paramName value, SsmOp.del paramName, SsmOp.put paramName value], some e2)
    else
      ([SsmOp.put paramName value], some e)

/-- The environment key written by `restartFunction`
(`SST_ADMIN_SECRET_UPDATED_AT`). -/
def SECRET_UPDATED_AT_ENV : Str := "SST_ADMIN_SECRET_UPDATED_AT".data

/-- A Lambda function configuration, reduced to its environment variables. -/
structure FnConfig where
  envVars : List (Str × Str)

/-- The compute-configuration API as seen by `restartFunction`: the get
and update calls, each of which may fail with a JavaScript error. -/
structure LambdaApi where
  getConfiguration : Str → Except JsError FnConfig
  updateConfiguration : Str → FnConfig → Except JsError Unit

/-- The body of the `try` block of `restartFunction`: read the current
configuration, write it back with the timestamp variable overwritten
(spread semantics: the timestamp entry is appended, overriding by
last-write-wins), and return `true`. -/
def tryRestart (api : LambdaApi) (now : Str) (arn : Str) : Except JsError Bool :=
  match api.getConfiguration arn with
  | Except.error e => Except.error e
  | Except.ok config =>
    match api.updateConfiguration arn
        { envVars := config.envVars ++ [(SECRET_UPDATED_AT_ENV, now)] } with
    | Except.error e => Except.error e
    | Except.ok _ => Except.ok true

/-- `restartFunction(arn)`: the `try` body wrapped in the catch block of
the source. The catch tests for `ResourceNotFoundException` with a
`Function not found` message and returns `undefined` (`none`) in that
case; control falling off the end of the catch block also returns
`undefined`, so no caught error is re-thrown. -/
def restartFunction (api : LambdaApi) (now : Str) (arn : Str) : Except JsError (Option Bool) :=
  match tryRestart api now arn with
  | Except.ok b => Except.ok (some b)
  | Except.error e =>
    if decide (e.name = "ResourceNotFoundException".data)
        && decide ("Function not found".data <+: e.message) then
      Except.ok none
    else
      Except.ok none

/-- The type-specific payload of a deployment-metadata resource. Site
payloads carry `mode`, `prefetchSecrets`, `edge` and `server`; function
payloads carry `prefetchSecrets` and `arn`; both carry `secrets`. The
model uses one record holding all fields. -/
structure ResourceData where
  secrets : List Str
  mode : Str
  prefetchSecrets : Bool
  edge : Bool
  server : Str
  arn : Str
deriving DecidableEq

/-- A deployment-metadata resource: its construct type tag and payload. -/
structure Resource where
  type : Str
  data : ResourceData
deriving DecidableEq

/-- The site-construct kinds recognised by `Config.restart`. -/
def isSiteType (t : Str) : Bool :=
  decide (t = "AstroSite".data) || decide (t = "NextjsSite".data)
    || decide (t = "RemixSite".data) || decide (t = "SolidStartSite".data)
    || decide (t = "SvelteKitSite".data)

namespace Config

/-- The `siteData` filter of `Config.restart`: flatten the per-stack
metadata, keep site-kind resources whose declared secrets intersect the
changed keys. -/
def siteData (metadata : List (List Resource)) (keys : List Str) : List Resource :=
  ((metadata.flatten.filter (fun c => isSiteType c.type)).filter
    (fun c => keys.any (fun key => decide (key ∈ c.data.secrets))))

/-- Placeholder-mode sites (skipped, listed only). -/
def siteDataPlaceholder (metadata : List (List Resource)) (keys : List Str) : List Resource :=
  (siteData metadata keys).filter (fun c => decide (c.data.mode = "placeholder".data))

/-- Deployed sites with prefetched secrets (skipped, listed only). -/
def siteDataWithPrefetchSecrets (metadata : List (List Resource)) (keys : List Str) : List Resource :=
  ((siteData metadata keys).filter (fun c => decide (c.data.mode = "deployed".data))).filter
    (fun c => c.data.prefetchSecrets)

/-- Deployed, non-prefetch, edge sites (listed, never restarted here). -/
def siteDataEdge (metadata : List (List Resource)) (keys : List Str) : List Resource :=
  (((siteData metadata keys).filter (fun c => decide (c.data.mode = "deployed".data))).filter
    (fun c => !c.data.prefetchSecrets)).filter (fun c => c.data.edge)

/-- Deployed, non-prefetch, regional sites (eligible for restart). -/
def siteDataRegional (metadata : List (List Resource)) (keys : List Str) : List Resource :=
  (((siteData metadata keys).filter (fun c => decide (c.data.mode = "deployed".data))).filter
    (fun c => !c.data.prefetchSecrets)).filter (fun c => !c.data.edge)

/-- `regionalSiteArns` of the source: the `server` identifier of every
matched site (despite its name, all matched sites, not only regional). -/
def regionalSiteArns (metadata : List (List Resource)) (keys : List Str) : List Str :=
  (siteData metadata keys).map (fun s => s.data.server)

/-- The `functionData` filter of `Config.restart`: plain function-type
resources, excluding any whose arn equals a matched site server, whose
declared secrets intersect the changed keys. -/
def functionData (metadata : List (List Resource)) (keys : List Str) : List Resource :=
  ((metadata.flatten.filter (fun c => decide (c.type = "Function".data))).filter
      (fun c => !decide (c.data.arn ∈ regionalSiteArns metadata keys))).filter
    (fun c => keys.any (fun key => decide (key ∈ c.data.secrets)))

/-- Functions with prefetched secrets (skipped, listed only). -/
def functionDataWithPrefetchSecrets (metadata : List (List Resource)) (keys : List Str) : List Resource :=
  (functionData metadata keys).filter (fun c => c.data.prefetchSecrets)

/-- Functions without prefetched secrets (eligible for restart). -/
def functionDataWithoutPrefetchSecrets (metadata : List (List Resource)) (keys : List Str) : List Resource :=
  (functionData metadata keys).filter (fun c => !c.data.prefetchSecrets)

/-- The classification report returned by `Config.restart`: the six named
groups of the source object literal, in source order. -/
structure Report where
  edgeSites : List Resource
  sites : List Resource
  placeholderSites : List Resource
  functions : List Resource
  sitesWithPrefetch : List Resource
  functionsWithPrefetch : List Resource
deriving DecidableEq

/-- `Config.restart(keys)`. The truthiness of each `restartFunction` call
is abstracted as the oracle `ok` over the signalled identifier: `true`
models a returned `true`, `false` models a returned `undefined`, so the
`filter(Boolean)` of the source keeps exactly the resources whose restart
signal succeeded. -/
def restart (ok : Str → Bool) (metadata : List (List Resource)) (keys : List Str) : Report :=
  { edgeSites := siteDataEdge metadata keys
    sites := (siteDataRegional metadata keys).filter (fun s => ok s.data.server)
    placeholderSites := siteDataPlaceholder metadata keys
    functions := (functionDataWithoutPrefetchSecrets metadata keys).filter (fun f => ok f.data.arn)
    sitesWithPrefetch := siteDataWithPrefetchSecrets metadata keys
    functionsWithPrefetch := functionDataWithPrefetchSecrets metadata keys }

/-- The resources to which `Config.restart` issues restart signals: the
regional sites (signalled at their `server`) followed by the non-prefetch
functions (signalled at their `arn`), exactly the two `Promise.all` maps
of the source. -/
def signaledResources (metadata : List (List Resource)) (keys : List Str) : List Resource :=
  siteDataRegional metadata keys ++ functionDataWithoutPrefetchSecrets metadata keys

end Config

/-- The named groups of the report, in the order of the source object
literal, with their JavaScript property names. -/
def reportGroups (r : Config.Report) : List (Str × List Resource) :=
  [("edgeSites".data, r.edgeSites),
   ("sites".data, r.sites),
   ("placeholderSites".data, r.placeholderSites),
   ("functions".data, r.functions),
   ("sitesWithPrefetch".data, r.sitesWithPrefetch),
   ("functionsWithPrefetch".data, r.functionsWithPrefetch)]

/-- A concrete project used by witnesses and counterexamples. -/
def exampleProject : Project :=
  { name := "app".data, stage := "dev".data, stagePathRoot := "/sst/app/dev/".data }

/-- A backing store holding exactly one parameter of type `Secret`, at the
stage-scope path `setSecret` would write for key `k`. -/
def secretStore : List (Str × Str) :=
  [(Config.pathFor exampleProject
      { type := "Secret".data, id := "k".data, prop := "value".data, fallback := false },
    "v".data)]

/-- A stage-scope parameter name of type `Parameter`. -/
def plainParamName : Str := "/sst/app/dev/Parameter/db/host".data

/-- A fallback-scope parameter name of type `Parameter`. -/
def fallbackParamName : Str := "/sst/app/.fallback/Parameter/db/host".data

/-- A backing store holding one plain parameter in each scope. -/
def plainStore : List (Str × Str) :=
  [(fallbackParamName, "y".data), (plainParamName, "x".data)]

/-- A backing store holding the same `(Parameter, db, host)` value in both
the fallback scope and the stage scope. -/
def fallbackStageStore : List (Str × Str) :=
  [(Config.pathFor exampleProject
      { type := "Parameter".data, id := "db".data, prop := "host".data, fallback := true },
    "fallback.example".data),
   (Config.pathFor exampleProject
      { type := "Parameter".data, id := "db".data, prop := "host".data, fallback := false },
    "stage.example".data)]

/-- Synthetic metadata: one site in each of the four site categories and
one plain function, all depending on secret `k`. -/
def examplePlaceholderSite : Resource :=
  { type := "NextjsSite".data
    data := { secrets := ["k".data], mode := "placeholder".data, prefetchSecrets := false,
              edge := false, server := "s1".data, arn := "s1".data } }

def examplePrefetchSite : Resource :=
  { type := "AstroSite".data
    data := { secrets := ["k".data], mode := "deployed".data, prefetchSecrets := true,
              edge := false, server := "s2".data, arn := "s2".data } }

def exampleEdgeSite : Resource :=
  { type := "RemixSite".data
    data := { secrets := ["k".data], mode := "deployed".data, prefetchSecrets := false,
              edge := true, server := "s3".data, arn := "s3".data } }

def exampleRegionalSite : Resource :=
  { type := "SvelteKitSite".data
    data := { secrets := ["k".data], mode := "deployed".data, prefetchSecrets := false,
              edge := false, server := "s4".data, arn := "s4".data } }

def exampleFunction : Resource :=
  { type := "Function".data
    data := { secrets := ["k".data], mode := "deployed".data, prefetchSecrets := false,
              edge := false, server := [], arn := "f1".data } }

def exampleMetadata : List (List Resource) :=
  [[examplePlaceholderSite, examplePrefetchSite, exampleEdgeSite, exampleRegionalSite,
    exampleFunction]]

def exampleKeys : List Str := ["k".data]

/-- A function whose arn coincides with the regional site server `s4`. -/
def exampleServerFunction : Resource :=
  { type := "Function".data
    data := { secrets := ["k".data], mode := "deployed".data, prefetchSecrets := false,
              edge := false, server := [], arn := "s4".data } }

def exampleMetadataWithServerFn : List (List Resource) :=
  [[exampleRegionalSite, exampleServerFunction]]

/-- The backend tier-downgrade error. -/
def downgradeError : JsError :=
  { name := "ValidationException".data, message := advancedDowngradeMsg }

/-- An unrelated backend error. -/
def throttlingError : JsError :=
  { name := "ThrottlingException".data, message := "Rate exceeded".data }

/-- A compute API whose update call fails with a throttling error. -/
def throttledApi : LambdaApi :=
  { getConfiguration := fun _ => Except.ok { envVars := [] }
    updateConfiguration := fun _ _ => Except.error throttlingError }

theorem splitChar_ne_nil (sep : Char) (l : List Char) : splitChar sep l ≠ [] := by
  induction l with
  | nil => simp [splitChar]
  | cons c cs ih =>
    by_cases hc : c = sep
    · simp [splitChar, hc]
    · cases h : splitChar sep cs with
      | nil => exact absurd h ih
      | cons p ps => simp [splitChar, hc, h]

theorem splitChar_sep (sep : Char) (cs : List Char) :
    splitChar sep (sep :: cs) = [] :: splitChar sep cs := by
  simp [splitChar]

theorem splitChar_cons_of_ne (sep c : Char) (cs p : List Char) (ps : List (List Char))
    (hc : c ≠ sep) (h : splitChar sep cs = p :: ps) :
    splitChar sep (c :: cs) = (c :: p) :: ps := by
  simp [splitChar, hc, h]

theorem splitChar_append (sep : Char) (a b : List Char) (ha : sep ∉ a) :
    splitChar sep (a ++ sep :: b) = a :: splitChar sep b := by
  induction a with
  | nil => simpa using splitChar_sep sep b
  | cons x xs ih =>
    have hx : x ≠ sep := by
      rintro rfl
      exact ha (List.mem_cons_self _ _)
    have hxs : sep ∉ xs := fun hm => ha (List.mem_cons_of_mem _ hm)
    have step := splitChar_cons_of_ne sep x (xs ++ sep :: b) xs (splitChar sep b) hx (ih hxs)
    simpa using step

theorem joinChar_cons_cons (sep : Char) (p q : List Char) (ps : List (List Char)) :
    joinChar sep (p :: q :: ps) = p ++ sep :: joinChar sep (q :: ps) := rfl

theorem joinChar_splitChar (sep : Char) (l : List Char) :
    joinChar sep (splitChar sep l) = l := by
  induction l with
  | nil => rfl
  | cons c cs ih =>
    by_cases hc : c = sep
    · subst hc
      rw [splitChar_sep]
      cases h : splitChar c cs with
      | nil => exact absurd h (splitChar_ne_nil _ _)
      | cons p ps =>
        rw [h] at ih
        rw [joinChar_cons_cons, ih]
        rfl
    · cases h : splitChar sep cs with
      | nil => exact absurd h (splitChar_ne_nil _ _)
      | cons p ps =>
        rw [splitChar_cons_of_ne sep c cs p ps hc h]
        rw [h] at ih
        cases ps with
        | nil => simpa [joinChar] using congrArg (fun x => c :: x) ih
        | cons q qs =>
          rw [joinChar_cons_cons] at ih ⊢
          rw [← ih]
          simp

theorem normChar_idem (c : Char) :
    (if (if c = '-' then '_' else c) = '-' then '_' else if c = '-' then '_' else c)
      = (if c = '-' then '_' else c) := by
  by_cases hc : c = '-'
  · subst hc
    decide
  · simp [hc]

theorem normalizeID_idem (s : Str) :
    Config.normalizeID (Config.normalizeID s) = Config.normalizeID s := by
  induction s with
  | nil => rfl
  | cons c cs ih =>
    simp only [Config.normalizeID, List.map_cons] at ih ⊢
    rw [show ((if (if c = '-' then '_' else c) = '-' then '_' else if c = '-' then '_' else c))
        = (if c = '-' then '_' else c) from normChar_idem c] at *
    exact congrArg _ ih

theorem noSlash_normalizeID (i : Str) (hi : ('/' : Char) ∉ i) :
    ('/' : Char) ∉ Config.normalizeID i := by
  intro hmem
  rcases List.mem_map.1 hmem with ⟨a, ha, hfa⟩
  by_cases hd : a = '-'
  · subst hd
    revert hfa
    decide
  · rw [if_neg hd] at hfa
    exact hi (hfa ▸ ha)

theorem noDash_normalizeID (i : Str) : ('-' : Char) ∉ Config.normalizeID i := by
  intro hmem
  rcases List.mem_map.1 hmem with ⟨a, _, hfa⟩
  by_cases hd : a = '-'
  · subst hd
    revert hfa
    decide
  · rw [if_neg hd] at hfa
    exact hd hfa

theorem pathFor_eq (project : Project) (input : Config.PathInput) :
    Config.pathFor project input =
      (if input.fallback then Config.PREFIX_FALLBACK project else Config.PREFIX_STAGE project)
        ++ (input.type ++ '/' :: (Config.normalizeID input.id ++ '/' :: input.prop)) := by
  simp [Config.pathFor, List.append_assoc]

theorem parse_pathFor (project : Project) (t i pr : Str) (fallback : Bool)
    (ht : ('/' : Char) ∉ t) (hi : ('/' : Char) ∉ i) :
    parse (Config.pathFor project { type := t, id := i, prop := pr, fallback := fallback })
        (if fallback then Config.PREFIX_FALLBACK project else Config.PREFIX_STAGE project)
      = { type := t, id := Config.normalizeID i, prop := pr } := by
  rw [pathFor_eq]
  unfold parse
  rw [List.drop_left]
  rw [splitChar_append _ _ _ ht, splitChar_append _ _ _ (noSlash_normalizeID i hi)]
  simp [joinChar_splitChar]

/-- C9: `normalizeID` maps `my-secret-key` to `my_secret_key`; it rewrites
exactly the `-` characters of its input to `_`, position by position,
preserving length; and it is idempotent. -/
theorem normalizeID_spec :
    Config.normalizeID "my-secret-key".data = "my_secret_key".data
    ∧ (∀ s : Str, (Config.normalizeID s).length = s.length)
    ∧ (∀ (s : Str) (n : Nat),
        (Config.normalizeID s)[n]? = (s[n]?).map (fun c => if c = '-' then '_' else c))
    ∧ (∀ s : Str, Config.normalizeID (Config.normalizeID s) = Config.normalizeID s) := by
  refine ⟨by decide, ?_, ?_, normalizeID_idem⟩
  · intro s
    simp [Config.normalizeID]
  · intro s n
    simp [Config.normalizeID]

/-- C10: parsing the path built by `pathFor` against the matching scope
root recovers the type, the normalised id and the prop verbatim, provided
the type and id contain no `/` (the prop may contain `/`); and when the
id contained a `-`, the original id is not recoverable because
normalisation is not injective there. -/
theorem pathFor_parse_round_trip (project : Project) (t i pr : Str) (fallback : Bool)
    (ht : ('/' : Char) ∉ t) (hi : ('/' : Char) ∉ i) :
    parse (Config.pathFor project { type := t, id := i, prop := pr, fallback := fallback })
        (if fallback then Config.PREFIX_FALLBACK project else Config.PREFIX_STAGE project)
      = { type := t, id := Config.normalizeID i, prop := pr }
    ∧ (('-' : Char) ∈ i → Config.normalizeID i ≠ i) := by
  refine ⟨parse_pathFor project t i pr fallback ht hi, ?_⟩
  intro hdash heq
  rw [← heq] at hdash
  exact noDash_normalizeID i hdash

/-- Witness for C10 at a concrete dashed id. -/
theorem pathFor_parse_round_trip_witness :
    parse (Config.pathFor exampleProject
        { type := "Parameter".data, id := "my-secret-key".data, prop := "host".data,
          fallback := false })
        (if false then Config.PREFIX_FALLBACK exampleProject
         else Config.PREFIX_STAGE exampleProject)
      = { type := "Parameter".data, id := Config.normalizeID "my-secret-key".data,
          prop := "host".data }
    ∧ Config.normalizeID "my-secret-key".data ≠ "my-secret-key".data :=
  ⟨(pathFor_parse_round_trip exampleProject "Parameter".data "my-secret-key".data "host".data
      false (by decide) (by decide)).1,
   (pathFor_parse_round_trip exampleProject "Parameter".data "my-secret-key".data "host".data
      false (by decide) (by decide)).2 (by decide)⟩

/-- C7: `putParameter` selects the Standard tier for values of length at
most 4096 and the Advanced tier for values whose length exceeds 4096. -/
theorem putParameter_tier_selection (name value : Str) :
    (value.length ≤ 4096 → (putParameter name value).Tier = ParamTier.Standard)
    ∧ (4096 < value.length → (putParameter name value).Tier = ParamTier.Advanced) := by
  constructor
  · intro h
    simp [putParameter, Nat.not_lt.2 h]
  · intro h
    simp [putParameter, h]

/-- Witness for C7 at the boundary lengths 4096 and 4097. -/
theorem putParameter_tier_selection_witness :
    (putParameter [] (List.replicate 4096 'a')).Tier = ParamTier.Standard
    ∧ (putParameter [] (List.replicate 4097 'a')).Tier = ParamTier.Advanced :=
  ⟨(putParameter_tier_selection [] (List.replicate 4096 'a')).1
      (by rw [List.length_replicate]),
   (putParameter_tier_selection [] (List.replicate 4097 'a')).2
      (by rw [List.length_replicate]; decide)⟩

/-- C3: when the first put fails with the tier-downgrade
`ValidationException` and the subsequent calls succeed, `setSecret`
performs exactly one delete of the secret path followed by one retried
put (then the event publish) and raises nothing; when the first put fails
with any other error, that error propagates unchanged and no delete and
no retry happen. -/
theorem setSecret_downgrade_recovery (project : Project) (key value : Str) (fallback : Bool)
    (e : JsError) (dres r2 : Except JsError Unit) :
    (wasAdvanced e = true →
      setSecret (Except.error e) (Except.ok ()) (Except.ok ()) project key value fallback
        = ([SsmOp.put (Config.pathFor project
              { type := "Secret".data, id := key, prop := "value".data, fallback := fallback })
              value,
            SsmOp.del (Config.pathFor project
              { type := "Secret".data, id := key, prop := "value".data, fallback := fallback }),
            SsmOp.put (Config.pathFor project
              { type := "Secret".data, id := key, prop := "value".data, fallback := fallback })
              value,
            SsmOp.publish "config.secret.updated".data key], none))
    ∧ (wasAdvanced e = false →
      setSecret (Except.error e) dres r2 project key value fallback
        = ([SsmOp.put (Config.pathFor project
              { type := "Secret".data, id := key, prop := "value".data, fallback := fallback })
              value], some e)) := by
  constructor
  · intro h
    simp [setSecret, h]
  · intro h
    simp [setSecret, h]

/-- Witness for C3: the downgrade error triggers delete-then-retry with no
raised error; a throttling error propagates with no delete and no retry. -/
theorem setSecret_downgrade_recovery_witness :
    wasAdvanced downgradeError = true
    ∧ setSecret (Except.error downgradeError) (Except.ok ()) (Except.ok ())
        exampleProject "k".data "v".data false
      = ([SsmOp.put (Config.pathFor exampleProject
            { type := "Secret".data, id := "k".data, prop := "value".data, fallback := false })
            "v".data,
          SsmOp.del (Config.pathFor exampleProject
            { type := "Secret".data, id := "k".data, prop := "value".data, fallback := false }),
          SsmOp.put (Config.pathFor exampleProject
            { type := "Secret".data, id := "k".data, prop := "value".data, fallback := false })
            "v".data,
          SsmOp.publish "config.secret.updated".data "k".data], none)
    ∧ wasAdvanced throttlingError = false
    ∧ setSecret (Except.error throttlingError) (Except.ok ()) (Except.ok ())
        exampleProject "k".data "v".data false
      = ([SsmOp.put (Config.pathFor exampleProject
            { type := "Secret".data, id := "k".data, prop := "value".data, fallback := false })
            "v".data], some throttlingError) :=
  ⟨by decide,
   (setSecret_downgrade_recovery exampleProject "k".data "v".data false downgradeError
      (Except.ok ()) (Except.ok ())).1 (by decide),
   by decide,
   (setSecret_downgrade_recovery exampleProject "k".data "v".data false throttlingError
      (Except.ok ()) (Except.ok ())).2 (by decide)⟩

theorem tryRestart_ok (api : LambdaApi) (now arn : Str) (b : Bool)
    (h : tryRestart api now arn = Except.ok b) : b = true := by
  unfold tryRestart at h
  cases hg : api.getConfiguration arn with
  | error e => simp [hg] at h
  | ok config =>
    simp only [hg] at h
    cases hu : api.updateConfiguration arn
        { envVars := config.envVars ++ [(SECRET_UPDATED_AT_ENV, now)] } with
    | error e => simp [hu] at h
    | ok u =>
      simp only [hu] at h
      injection h with h2
      exact h2.symm

/-- C5 counterexample: against a compute API whose update call fails with
a `ThrottlingException` (not a resource-not-found error),raising no error,
`restartFunction` returns the not-restarted outcome (`undefined`) instead
of propagating the failure, because the catch block falls through for
every caught error. -/
theorem restartFunction_swallows_other_errors_example :
    restartFunction throttledApi "1".data "arn".data = Except.ok none
    ∧ throttlingError.name ≠ "ResourceNotFoundException".data :=
  ⟨rfl, by decide⟩

/-- C5 amended: `restartFunction` never propagates any compute-API
failure: it always returns normally, yielding the restarted outcome
exactly when both the get and the update call succeeded and the
not-restarted outcome (`undefined`) for every failure, resource-not-found
or otherwise. -/
theorem restartFunction_never_propagates (api : LambdaApi) (now arn : Str) :
    (restartFunction api now arn).isOk = true
    ∧ ((restartFunction api now arn = Except.ok (some true))
        ↔ (tryRestart api now arn).isOk = true)
    ∧ ((restartFunction api now arn = Except.ok none)
        ↔ (tryRestart api now arn).isOk = false) := by
  cases h : tryRestart api now arn with
  | ok b =>
    have hb := tryRestart_ok api now arn b h
    subst hb
    simp [restartFunction, h, Except.isOk, Except.toBool]
  | error e =>
    have hre : restartFunction api now arn = Except.ok none := by
      simp only [restartFunction, h]
      split <;> rfl
    rw [hre]
    refine ⟨rfl, ?_, ?_⟩ <;> simp [Except.isOk, Except.toBool]

/-- C1 counterexample: with a backing store holding exactly the parameter
`setSecret` writes for key `k` (path built by `pathFor` with type
`Secret`), the parameter listing returns that entry, with parsed type
`Secret`: the `secrets` filter of the source never matches the `Secret`
path segment. -/
theorem parameters_includes_Secret_entry_example :
    Config.parameters exampleProject secretStore
      = [{ type := "Secret".data, id := "k".data, prop := "value".data, value := "v".data }]
    ∧ "Secret".data ∈ (Config.parameters exampleProject secretStore).map ConfigParameter.type :=
  ⟨by decide, by decide⟩

theorem parametersFrom_type_ne (pre : Str) (store : List (Str × Str)) (p : ConfigParameter)
    (hp : p ∈ Config.parametersFrom pre store) : p.type ≠ "secrets".data := by
  rcases List.mem_filterMap.1 hp with ⟨a, _, ha⟩
  dsimp only at ha
  by_cases hs : (parse a.1 pre).type = "secrets".data
  · rw [if_pos hs] at ha
    exact absurd ha (by simp)
  · rw [if_neg hs] at ha
    cases ha
    exact hs

theorem mem_parametersFrom (pre : Str) (store : List (Str × Str)) (nm v : Str)
    (hmem : (nm, v) ∈ store) (hpre : pre <+: nm)
    (hty : (parse nm pre).type ≠ "secrets".data) :
    ({ type := (parse nm pre).type, id := (parse nm pre).id, prop := (parse nm pre).prop,
       value := v } : ConfigParameter) ∈ Config.parametersFrom pre store := by
  refine List.mem_filterMap.2 ⟨(nm, v), List.mem_filter.2 ⟨hmem, by simpa using hpre⟩, ?_⟩
  dsimp only
  rw [if_neg hty]

/-- C1 amended: the parameter listing excludes exactly the entries whose
parsed type is the literal string `secrets`; any stored parameter under
the scanned FALLBACK scope or STAGE scope whose parsed type differs from
`secrets` — in particular one of type `Secret` — is returned by the
listing. -/
theorem parameters_excludes_lowercase_secrets (project : Project) (store : List (Str × Str)) :
    (∀ p ∈ Config.parameters project store, p.type ≠ "secrets".data)
    ∧ (∀ nm v, (nm, v) ∈ store → Config.PREFIX_FALLBACK project <+: nm →
        (parse nm (Config.PREFIX_FALLBACK project)).type ≠ "secrets".data →
        ({ type := (parse nm (Config.PREFIX_FALLBACK project)).type
           id := (parse nm (Config.PREFIX_FALLBACK project)).id
           prop := (parse nm (Config.PREFIX_FALLBACK project)).prop
           value := v } : ConfigParameter) ∈ Config.parameters project store)
    ∧ (∀ nm v, (nm, v) ∈ store → Config.PREFIX_STAGE project <+: nm →
        (parse nm (Config.PREFIX_STAGE project)).type ≠ "secrets".data →
        ({ type := (parse nm (Config.PREFIX_STAGE project)).type
           id := (parse nm (Config.PREFIX_STAGE project)).id
           prop := (parse nm (Config.PREFIX_STAGE project)).prop
           value := v } : ConfigParameter) ∈ Config.parameters project store) := by
  refine ⟨?_, ?_, ?_⟩
  · intro p hp
    rcases List.mem_append.1 hp with hp | hp
    · exact parametersFrom_type_ne _ store p hp
    · exact parametersFrom_type_ne _ store p hp
  · intro nm v hmem hpre hty
    exact List.mem_append.2 (Or.inl (mem_parametersFrom _ store nm v hmem hpre hty))
  · intro nm v hmem hpre hty
    exact List.mem_append.2 (Or.inr (mem_parametersFrom _ store nm v hmem hpre hty))

/-- Witness for C1 amended: a fallback-scope `Parameter` entry and a
stage-scope `Parameter` entry are both returned by the listing. -/
theorem parameters_excludes_lowercase_secrets_witness :
    ({ type := (parse fallbackParamName (Config.PREFIX_FALLBACK exampleProject)).type
       id := (parse fallbackParamName (Config.PREFIX_FALLBACK exampleProject)).id
       prop := (parse fallbackParamName (Config.PREFIX_FALLBACK exampleProject)).prop
       value := "y".data } : ConfigParameter) ∈ Config.parameters exampleProject plainStore
    ∧ ({ type := (parse plainParamName (Config.PREFIX_STAGE exampleProject)).type
         id := (parse plainParamName (Config.PREFIX_STAGE exampleProject)).id
         prop := (parse plainParamName (Config.PREFIX_STAGE exampleProject)).prop
         value := "x".data } : ConfigParameter) ∈ Config.parameters exampleProject plainStore :=
  ⟨(parameters_excludes_lowercase_secrets exampleProject plainStore).2.1 fallbackParamName
      "y".data (by decide) (by decide) (by decide),
   (parameters_excludes_lowercase_secrets exampleProject plainStore).2.2 plainParamName
      "x".data (by decide) (by decide) (by decide)⟩

theorem find?_append_left {α : Type} (p : α → Bool) (l₁ l₂ : List α) (a : α)
    (h : l₁.find? p = some a) : (l₁ ++ l₂).find? p = some a := by
  induction l₁ with
  | nil => simp at h
  | cons x xs ih =>
    rw [List.cons_append]
    by_cases hx : p x = true
    · rw [List.find?_cons_of_pos _ hx] at h ⊢
      exact h
    · rw [List.find?_cons_of_neg _ hx] at h ⊢
      exact ih h

theorem exists_find?_of_mem {α : Type} (p : α → Bool) (l : List α) (a : α)
    (ha : a ∈ l) (hp : p a = true) : ∃ b, l.find? p = some b := by
  induction l with
  | nil => cases ha
  | cons x xs ih =>
    by_cases hx : p x = true
    · exact ⟨x, List.find?_cons_of_pos _ hx⟩
    · rcases List.mem_cons.1 ha with rfl | ha2
      · exact absurd hp hx
      · rcases ih ha2 with ⟨b, hb⟩
        refine ⟨b, ?_⟩
        rw [List.find?_cons_of_neg _ hx]
        exact hb

theorem envLookup_append_right (l₁ l₂ : List (Str × Str)) (k v : Str)
    (hex : ∃ e ∈ l₂, e.1 = k)
    (hall : ∀ e ∈ l₂, e.1 = k → e.2 = v) :
    envLookup (l₁ ++ l₂) k = some v := by
  unfold envLookup
  rw [List.reverse_append]
  rcases hex with ⟨e, he, hek⟩
  have hmemrev : e ∈ l₂.reverse := List.mem_reverse.2 he
  rcases exists_find?_of_mem (fun x : Str × Str => decide (x.1 = k)) l₂.reverse e hmemrev
    (by simp [hek]) with ⟨b, hb⟩
  rw [find?_append_left (fun x : Str × Str => decide (x.1 = k)) l₂.reverse l₁.reverse b hb]
  have hbm : b ∈ l₂ := List.mem_reverse.1 (List.mem_of_find?_eq_some hb)
  have hbp := List.find?_some hb
  have hbv : b.2 = v := hall b hbm (by simpa using hbp)
  simp [hbv]

/-- C4: when the same `(type, id, prop)` is stored in both the FALLBACK
scope and the STAGE scope, the environment map built by `Config.env`
resolves the corresponding variable to the STAGE value: the listing puts
all fallback entries before all stage entries and the map is built with
last-write-wins. The hypothesis `huniq` pins the STAGE value: every
stage-scan entry colliding on the same variable name carries `vS`. -/
theorem env_stage_overrides_fallback (project : Project) (store : List (Str × Str))
    (t i pr vF vS : Str)
    (ht : ('/' : Char) ∉ t) (hi : ('/' : Char) ∉ i) (hsec : t ≠ "secrets".data)
    (hfb : (Config.pathFor project { type := t, id := i, prop := pr, fallback := true }, vF) ∈ store)
    (hst : (Config.pathFor project { type := t, id := i, prop := pr, fallback := false }, vS) ∈ store)
    (huniq : ∀ p ∈ Config.parametersFrom (Config.PREFIX_STAGE project) store,
        Config.envFor p.type p.id p.prop = Config.envFor t i pr → p.value = vS) :
    envLookup (Config.env project store) (Config.envFor t i pr) = some vS := by
  have hparse : parse (Config.pathFor project { type := t, id := i, prop := pr, fallback := false })
      (Config.PREFIX_STAGE project) = { type := t, id := Config.normalizeID i, prop := pr } := by
    simpa using parse_pathFor project t i pr false ht hi
  have hpre : Config.PREFIX_STAGE project
      <+: Config.pathFor project { type := t, id := i, prop := pr, fallback := false } :=
    ⟨t ++ '/' :: (Config.normalizeID i ++ '/' :: pr), by rw [pathFor_eq]; rfl⟩
  have hmem := mem_parametersFrom (Config.PREFIX_STAGE project) store
    (Config.pathFor project { type := t, id := i, prop := pr, fallback := false }) vS hst hpre
    (by rw [hparse]; exact hsec)
  rw [hparse] at hmem
  have hkey : Config.envFor t (Config.normalizeID i) pr = Config.envFor t i pr := by
    simp [Config.envFor, normalizeID_idem]
  have henv : Config.env project store =
      (("SST_APP".data, project.name) :: ("SST_STAGE".data, project.stage) ::
        (Config.parametersFrom (Config.PREFIX_FALLBACK project) store).map
          (fun p => (Config.envFor p.type p.id p.prop, p.value)))
      ++ (Config.parametersFrom (Config.PREFIX_STAGE project) store).map
          (fun p => (Config.envFor p.type p.id p.prop, p.value)) := by
    simp [Config.env, Config.parameters]
  rw [henv]
  refine envLookup_append_right _ _ _ vS ⟨?_, ?_, ?_⟩ ?_
  · exact (Config.envFor t (Config.normalizeID i) pr, vS)
  · exact List.mem_map.2 ⟨{ type := t, id := Config.normalizeID i, prop := pr, value := vS },
      hmem, rfl⟩
  · exact hkey
  · intro e he hek
    rcases List.mem_map.1 he with ⟨p, hp, rfl⟩
    exact huniq p hp hek

/-- Witness for C4 on the `db/host` store: the stage value wins. -/
theorem env_stage_overrides_fallback_witness :
    envLookup (Config.env exampleProject fallbackStageStore)
      (Config.envFor "Parameter".data "db".data "host".data) = some "stage.example".data :=
  env_stage_overrides_fallback exampleProject fallbackStageStore "Parameter".data "db".data
    "host".data "fallback.example".data "stage.example".data (by decide) (by decide) (by decide)
    (by decide) (by decide) (by decide)

theorem mem_siteDataPlaceholder (metadata : List (List Resource)) (keys : List Str) (c : Resource) :
    c ∈ Config.siteDataPlaceholder metadata keys
      ↔ c ∈ Config.siteData metadata keys ∧ c.data.mode = "placeholder".data := by
  simp [Config.siteDataPlaceholder, List.mem_filter]

theorem mem_siteDataWithPrefetchSecrets (metadata : List (List Resource)) (keys : List Str)
    (c : Resource) :
    c ∈ Config.siteDataWithPrefetchSecrets metadata keys
      ↔ c ∈ Config.siteData metadata keys ∧ c.data.mode = "deployed".data
        ∧ c.data.prefetchSecrets = true := by
  unfold Config.siteDataWithPrefetchSecrets
  rw [List.mem_filter, List.mem_filter]
  constructor
  · rintro ⟨⟨hs, hm⟩, hp⟩
    exact ⟨hs, by simpa using hm, hp⟩
  · rintro ⟨hs, hm, hp⟩
    exact ⟨⟨hs, by simpa using hm⟩, hp⟩

theorem mem_siteDataEdge (metadata : List (List Resource)) (keys : List Str) (c : Resource) :
    c ∈ Config.siteDataEdge metadata keys
      ↔ c ∈ Config.siteData metadata keys ∧ c.data.mode = "deployed".data
        ∧ c.data.prefetchSecrets = false ∧ c.data.edge = true := by
  unfold Config.siteDataEdge
  rw [List.mem_filter, List.mem_filter, List.mem_filter]
  constructor
  · rintro ⟨⟨⟨hs, hm⟩, hp⟩, he⟩
    exact ⟨hs, by simpa using hm, by simpa using hp, he⟩
  · rintro ⟨hs, hm, hp, he⟩
    exact ⟨⟨⟨hs, by simpa using hm⟩, by simpa using hp⟩, he⟩

theorem mem_siteDataRegional (metadata : List (List Resource)) (keys : List Str) (c : Resource) :
    c ∈ Config.siteDataRegional metadata keys
      ↔ c ∈ Config.siteData metadata keys ∧ c.data.mode = "deployed".data
        ∧ c.data.prefetchSecrets = false ∧ c.data.edge = false := by
  unfold Config.siteDataRegional
  rw [List.mem_filter, List.mem_filter, List.mem_filter]
  constructor
  · rintro ⟨⟨⟨hs, hm⟩, hp⟩, he⟩
    exact ⟨hs, by simpa using hm, by simpa using hp, by simpa using he⟩
  · rintro ⟨hs, hm, hp, he⟩
    exact ⟨⟨⟨hs, by simpa using hm⟩, by simpa using hp⟩, by simpa using he⟩

theorem mem_functionData (metadata : List (List Resource)) (keys : List Str) (c : Resource) :
    c ∈ Config.functionData metadata keys
      ↔ c ∈ metadata.flatten ∧ c.type = "Function".data
        ∧ c.data.arn ∉ Config.regionalSiteArns metadata keys
        ∧ keys.any (fun key => decide (key ∈ c.data.secrets)) = true := by
  unfold Config.functionData
  rw [List.mem_filter, List.mem_filter, List.mem_filter]
  constructor
  · rintro ⟨⟨⟨hm, ht⟩, harn⟩, hsec⟩
    exact ⟨hm, by simpa using ht, by simpa using harn, hsec⟩
  · rintro ⟨hm, ht, harn, hsec⟩
    exact ⟨⟨⟨hm, by simpa using ht⟩, by simpa using harn⟩, hsec⟩

theorem mem_functionDataWithPrefetchSecrets (metadata : List (List Resource)) (keys : List Str)
    (c : Resource) :
    c ∈ Config.functionDataWithPrefetchSecrets metadata keys
      ↔ c ∈ Config.functionData metadata keys ∧ c.data.prefetchSecrets = true := by
  simp [Config.functionDataWithPrefetchSecrets, List.mem_filter]

theorem mem_functionDataWithoutPrefetchSecrets (metadata : List (List Resource)) (keys : List Str)
    (c : Resource) :
    c ∈ Config.functionDataWithoutPrefetchSecrets metadata keys
      ↔ c ∈ Config.functionData metadata keys ∧ c.data.prefetchSecrets = false := by
  simp [Config.functionDataWithoutPrefetchSecrets, List.mem_filter, Bool.not_eq_true']

theorem mem_siteData_isSiteType (metadata : List (List Resource)) (keys : List Str) (c : Resource)
    (h : c ∈ Config.siteData metadata keys) : isSiteType c.type = true := by
  simp only [Config.siteData, List.mem_filter] at h
  exact h.1.2

theorem siteType_ne_function (t : Str) (h : isSiteType t = true) : t ≠ "Function".data := by
  simp [isSiteType] at h
  rcases h with ((((h | h) | h) | h) | h) <;> subst h <;> decide

/-- C2: for any metadata snapshot whose matched sites carry a mode of
`placeholder` or `deployed` (the two modes of the data model) and any
non-empty key set, the four site buckets of `Config.restart` partition
the matched sites — every matched site lies in exactly one bucket — and
restart signals go only to the regional-site bucket and the non-prefetch
functions, never to a placeholder, prefetch, or edge resource. -/
theorem restart_partitions_sites (metadata : List (List Resource)) (keys : List Str)
    (hkeys : keys ≠ [])
    (hmode : ∀ c ∈ Config.siteData metadata keys,
      c.data.mode = "placeholder".data ∨ c.data.mode = "deployed".data) :
    (∀ c ∈ Config.siteData metadata keys,
        (c ∈ Config.siteDataPlaceholder metadata keys
          ∧ c ∉ Config.siteDataWithPrefetchSecrets metadata keys
          ∧ c ∉ Config.siteDataEdge metadata keys
          ∧ c ∉ Config.siteDataRegional metadata keys)
      ∨ (c ∉ Config.siteDataPlaceholder metadata keys
          ∧ c ∈ Config.siteDataWithPrefetchSecrets metadata keys
          ∧ c ∉ Config.siteDataEdge metadata keys
          ∧ c ∉ Config.siteDataRegional metadata keys)
      ∨ (c ∉ Config.siteDataPlaceholder metadata keys
          ∧ c ∉ Config.siteDataWithPrefetchSecrets metadata keys
          ∧ c ∈ Config.siteDataEdge metadata keys
          ∧ c ∉ Config.siteDataRegional metadata keys)
      ∨ (c ∉ Config.siteDataPlaceholder metadata keys
          ∧ c ∉ Config.siteDataWithPrefetchSecrets metadata keys
          ∧ c ∉ Config.siteDataEdge metadata keys
          ∧ c ∈ Config.siteDataRegional metadata keys))
    ∧ (∀ c ∈ Config.signaledResources metadata keys,
        (c ∈ Config.siteDataRegional metadata keys
          ∨ c ∈ Config.functionDataWithoutPrefetchSecrets metadata keys)
        ∧ c ∉ Config.siteDataPlaceholder metadata keys
        ∧ c ∉ Config.siteDataWithPrefetchSecrets metadata keys
        ∧ c ∉ Config.siteDataEdge metadata keys
        ∧ c ∉ Config.functionDataWithPrefetchSecrets metadata keys) := by
  have hne : ("placeholder".data : Str) ≠ "deployed".data := by decide
  constructor
  · intro c hc
    rcases hmode c hc with hm | hm
    · left
      refine ⟨(mem_siteDataPlaceholder metadata keys c).2 ⟨hc, hm⟩, ?_, ?_, ?_⟩
      · intro hw
        exact hne (hm ▸ ((mem_siteDataWithPrefetchSecrets metadata keys c).1 hw).2.1)
      · intro hw
        exact hne (hm ▸ ((mem_siteDataEdge metadata keys c).1 hw).2.1)
      · intro hw
        exact hne (hm ▸ ((mem_siteDataRegional metadata keys c).1 hw).2.1)
    · by_cases hp : c.data.prefetchSecrets = true
      · right; left
        refine ⟨?_, (mem_siteDataWithPrefetchSecrets metadata keys c).2 ⟨hc, hm, hp⟩, ?_, ?_⟩
        · intro hw
          exact hne (((mem_siteDataPlaceholder metadata keys c).1 hw).2 ▸ hm)
        · intro hw
          have := ((mem_siteDataEdge metadata keys c).1 hw).2.2.1
          rw [hp] at this
          cases this
        · intro hw
          have := ((mem_siteDataRegional metadata keys c).1 hw).2.2.1
          rw [hp] at this
          cases this
      · have hp' : c.data.prefetchSecrets = false := by
          revert hp
          cases c.data.prefetchSecrets <;> simp
        by_cases he : c.data.edge = true
        · right; right; left
          refine ⟨?_, ?_, (mem_siteDataEdge metadata keys c).2 ⟨hc, hm, hp', he⟩, ?_⟩
          · intro hw
            exact hne (((mem_siteDataPlaceholder metadata keys c).1 hw).2 ▸ hm)
          · intro hw
            have := ((mem_siteDataWithPrefetchSecrets metadata keys c).1 hw).2.2
            rw [hp'] at this
            cases this
          · intro hw
            have := ((mem_siteDataRegional metadata keys c).1 hw).2.2.2
            rw [he] at this
            cases this
        · have he' : c.data.edge = false := by
            revert he
            cases c.data.edge <;> simp
          right; right; right
          refine ⟨?_, ?_, ?_, (mem_siteDataRegional metadata keys c).2 ⟨hc, hm, hp', he'⟩⟩
          · intro hw
            exact hne (((mem_siteDataPlaceholder metadata keys c).1 hw).2 ▸ hm)
          · intro hw
            have := ((mem_siteDataWithPrefetchSecrets metadata keys c).1 hw).2.2
            rw [hp'] at this
            cases this
          · intro hw
            have := ((mem_siteDataEdge metadata keys c).1 hw).2.2.2
            rw [he'] at this
            cases this
  · intro c hcm
    rcases List.mem_append.1 hcm with hcr | hcf
    · rcases (mem_siteDataRegional metadata keys c).1 hcr with ⟨hcS, hdep, hpf, hef⟩
      refine ⟨Or.inl hcr, ?_, ?_, ?_, ?_⟩
      · intro hw
        exact hne (((mem_siteDataPlaceholder metadata keys c).1 hw).2 ▸ hdep)
      · intro hw
        have := ((mem_siteDataWithPrefetchSecrets metadata keys c).1 hw).2.2
        rw [hpf] at this
        cases this
      · intro hw
        have := ((mem_siteDataEdge metadata keys c).1 hw).2.2.2
        rw [hef] at this
        cases this
      · intro hw
        have hty := ((mem_functionData metadata keys c).1
          ((mem_functionDataWithPrefetchSecrets metadata keys c).1 hw).1).2.1
        exact siteType_ne_function c.type (mem_siteData_isSiteType metadata keys c hcS) hty
    · rcases (mem_functionDataWithoutPrefetchSecrets metadata keys c).1 hcf with ⟨hcF, hpf⟩
      have hty := ((mem_functionData metadata keys c).1 hcF).2.1
      refine ⟨Or.inr hcf, ?_, ?_, ?_, ?_⟩
      · intro hw
        exact siteType_ne_function c.type
          (mem_siteData_isSiteType metadata keys c
            ((mem_siteDataPlaceholder metadata keys c).1 hw).1) hty
      · intro hw
        exact siteType_ne_function c.type
          (mem_siteData_isSiteType metadata keys c
            ((mem_siteDataWithPrefetchSecrets metadata keys c).1 hw).1) hty
      · intro hw
        exact siteType_ne_function c.type
          (mem_siteData_isSiteType metadata keys c
            ((mem_siteDataEdge metadata keys c).1 hw).1) hty
      · intro hw
        have := ((mem_functionDataWithPrefetchSecrets metadata keys c).1 hw).2
        rw [hpf] at this
        cases this

/-- Witness for C2: in the synthetic snapshot, the regional site lands in
the regional bucket, extracted from the partition theorem at that site. -/
theorem restart_partitions_sites_witness :
    exampleRegionalSite ∈ Config.siteDataRegional exampleMetadata exampleKeys := by
  rcases (restart_partitions_sites exampleMetadata exampleKeys (by decide) (by decide)).1
      exampleRegionalSite (by decide) with h | h | h | h
  · exact absurd h.1 (by decide)
  · exact absurd h.2.1 (by decide)
  · exact absurd h.2.2.1 (by decide)
  · exact h.2.2.2

/-- C6: a Function-type resource whose arn equals the `server` identifier
of any site matched by `Config.restart` is excluded from `functionData`
and hence from both function groups of the report, so no resource is
handled both as a site server and as a plain function. -/
theorem restart_excludes_site_server_functions (metadata : List (List Resource))
    (keys : List Str) (ok : Str → Bool) (f : Resource)
    (hf : f.data.arn ∈ Config.regionalSiteArns metadata keys) :
    f ∉ Config.functionDataWithPrefetchSecrets metadata keys
    ∧ f ∉ Config.functionDataWithoutPrefetchSecrets metadata keys
    ∧ f ∉ (Config.restart ok metadata keys).functions
    ∧ f ∉ (Config.restart ok metadata keys).functionsWithPrefetch := by
  have hnf : f ∉ Config.functionData metadata keys := by
    intro hmem
    exact ((mem_functionData metadata keys f).1 hmem).2.2.1 hf
  refine ⟨?_, ?_, ?_, ?_⟩
  · intro h
    exact hnf ((mem_functionDataWithPrefetchSecrets metadata keys f).1 h).1
  · intro h
    exact hnf ((mem_functionDataWithoutPrefetchSecrets metadata keys f).1 h).1
  · intro h
    exact hnf ((mem_functionDataWithoutPrefetchSecrets metadata keys f).1
      (List.mem_filter.1 h).1).1
  · intro h
    exact hnf ((mem_functionDataWithPrefetchSecrets metadata keys f).1 h).1

/-- Witness for C6: the function whose arn equals the matched site server
`s4` appears in no function group of the report. -/
theorem restart_excludes_site_server_functions_witness :
    exampleServerFunction ∉ Config.functionDataWithPrefetchSecrets
        exampleMetadataWithServerFn exampleKeys
    ∧ exampleServerFunction ∉ Config.functionDataWithoutPrefetchSecrets
        exampleMetadataWithServerFn exampleKeys
    ∧ exampleServerFunction ∉ (Config.restart (fun _ => true)
        exampleMetadataWithServerFn exampleKeys).functions
    ∧ exampleServerFunction ∉ (Config.restart (fun _ => true)
        exampleMetadataWithServerFn exampleKeys).functionsWithPrefetch :=
  restart_excludes_site_server_functions exampleMetadataWithServerFn exampleKeys (fun _ => true)
    exampleServerFunction (by decide)

/-- C8 counterexample: the report returned by `Config.restart` has six
named groups, not seven, already on the empty input. -/
theorem restart_report_six_groups_example :
    (reportGroups (Config.restart (fun _ => true) [] [])).length = 6
    ∧ (reportGroups (Config.restart (fun _ => true) [] [])).length ≠ 7 :=
  ⟨rfl, by decide⟩

/-- C8 amended: for every input, `Config.restart` returns a report with
six named groups — edge sites (not restarted), restarted regional sites,
placeholder sites (not restarted), restarted functions, sites with
prefetch (not restarted) and functions with prefetch (not restarted) —
whose contents are the corresponding classification buckets, the two
restarted groups being filtered by restart success. -/
theorem restart_report_groups (ok : Str → Bool) (metadata : List (List Resource))
    (keys : List Str) :
    (reportGroups (Config.restart ok metadata keys)).map Prod.fst
      = ["edgeSites".data, "sites".data, "placeholderSites".data, "functions".data,
         "sitesWithPrefetch".data, "functionsWithPrefetch".data]
    ∧ (reportGroups (Config.restart ok metadata keys)).length = 6
    ∧ (Config.restart ok metadata keys).edgeSites = Config.siteDataEdge metadata keys
    ∧ (Config.restart ok metadata keys).sites
        = (Config.siteDataRegional metadata keys).filter (fun s => ok s.data.server)
    ∧ (Config.restart ok metadata keys).placeholderSites
        = Config.siteDataPlaceholder metadata keys
    ∧ (Config.restart ok metadata keys).functions
        = (Config.functionDataWithoutPrefetchSecrets metadata keys).filter
            (fun f => ok f.data.arn)
    ∧ (Config.restart ok metadata keys).sitesWithPrefetch
        = Config.siteDataWithPrefetchSecrets metadata keys
    ∧ (Config.restart ok metadata keys).functionsWithPrefetch
        = Config.functionDataWithPrefetchSecrets metadata keys :=
  ⟨rfl, rfl, rfl, rfl, rfl, rfl, rfl, rfl⟩
